import Mathlib

/-!
Verification development for the REGOD learning-platform backend
(authorization core: teacher-code redemption, token verification,
identity resolution, RBAC gate).

The definitions below are shallow embeddings of the Python source:

* `use_teacher_code` embeds the redemption endpoint in
  `app/routes/teacher_codes.py` (lines 103-198), operating on the
  `teacher_codes`, `teacher_code_uses` and `student_teacher_access`
  tables of `app/models.py`.
* `verifyBearerToken` embeds the token-verification phase of
  `get_current_user` in `app/utils/auth.py` (lines 115-181), with the
  three cryptographic strategies abstracted as oracle functions.
* `resolveUser` embeds the identity-resolution phase of
  `get_current_user` (lines 191-267).
* `require_permission` embeds the decorator in `app/rbac.py`
  (lines 69-93) together with `User.has_permission` from
  `app/models.py` (lines 80-95).

Machine integers are modelled as `Int`/`Nat` (no overflow is relevant:
counters only grow by one per request), timestamps as `Int`, and UUID
strings as `String` with an explicit format check mirroring
`uuid.UUID(...)` parsing.
-/

namespace Regod

/-- Row of the `teacher_codes` table (`app/models.py`, class `TeacherCode`):
`code` unique string, `teacher_id` owner, optional `expires_at`,
`max_uses` (the column default in `app/models.py` is 1), `use_count`,
`is_active`. -/
structure TeacherCode where
  id : Nat
  code : String
  teacher_id : String
  expires_at : Option Int
  max_uses : Int
  use_count : Int
  is_active : Bool
deriving DecidableEq, Repr

/-- Row of the `teacher_code_uses` table (`app/models.py`, class
`TeacherCodeUse`): which student used which code. -/
structure TeacherCodeUse where
  code_id : Nat
  student_id : String
deriving DecidableEq, Repr

/-- Row of the `student_teacher_access` table (`app/models.py`, class
`StudentTeacherAccess`). -/
structure StudentTeacherAccess where
  student_id : String
  teacher_id : String
  granted_via_code : Bool
deriving DecidableEq, Repr

/-- The slice of the relational store touched by the redemption endpoint. -/
structure CodesDB where
  teacher_codes : List TeacherCode
  teacher_code_uses : List TeacherCodeUse
  student_teacher_access : List StudentTeacherAccess
deriving DecidableEq, Repr

/-- The authenticated caller as seen by the endpoint: an id plus the
names of the roles it holds (`User.has_role` in `app/models.py` only
inspects role names). -/
structure AuthUser where
  id : String
  roles : List String
deriving DecidableEq, Repr

/-- `User.has_role` from `app/models.py` (line 97): true iff some held
role has the given name. -/
def hasRoleName (u : AuthUser) (r : String) : Bool :=
  u.roles.contains r

/-- Outcome of a call to the redemption endpoint: either an
`HTTPException` 403 (non-students) or a `TeacherCodeUseResponse`
carrying `success` and `message`. -/
inductive UseOutcome where
  | forbidden (detail : String)
  | response (success : Bool) (message : String)
deriving DecidableEq, Repr

/-- Message returned when no active row matches the presented code
(`teacher_codes.py` line 126). -/
def msgInvalid : String := "Invalid or expired code"

/-- Message returned when the matched code is past its expiry
(`teacher_codes.py` line 135). -/
def msgExpired : String := "Code has expired"

/-- Message returned when the matched code has reached its maximum uses
(`teacher_codes.py` line 144). -/
def msgExhausted : String := "Code has reached maximum uses"

/-- Message returned when the caller already used this code
(`teacher_codes.py` line 156). -/
def msgAlreadyUsed : String := "You have already used this code"

/-- Message returned when the caller already has access to the teacher
(`teacher_codes.py` line 168). -/
def msgAlreadyAccess : String := "You already have access to this teacher\x27s content"

/-- Message returned on success (`teacher_codes.py` line 196). -/
def msgSuccess : String := "Successfully activated teacher code"

/-- The filter of the lookup query (`teacher_codes.py` lines 118-121):
`TeacherCode.code == code_request.code, TeacherCode.is_active == True`. -/
def matchesActiveCode (s : String) (c : TeacherCode) : Bool :=
  c.code == s && c.is_active

/-- The expiry test (`teacher_codes.py` line 130):
`teacher_code.expires_at and teacher_code.expires_at < datetime.utcnow()`;
a missing `expires_at` is falsy, so it never counts as expired. -/
def codeExpired (c : TeacherCode) (now : Int) : Bool :=
  match c.expires_at with
  | none => false
  | some t => decide (t < now)

/-- Persisting `teacher_code.is_active = False` for the matched row. -/
def deactivateCode (codes : List TeacherCode) (cid : Nat) : List TeacherCode :=
  codes.map (fun c => if c.id = cid then { c with is_active := false } else c)

/-- Persisting `teacher_code.use_count += 1` for the matched row. -/
def bumpUseCount (codes : List TeacherCode) (cid : Nat) : List TeacherCode :=
  codes.map (fun c => if c.id = cid then { c with use_count := c.use_count + 1 } else c)

/-- Shallow embedding of the endpoint body `use_teacher_code`
(`app/routes/teacher_codes.py`, lines 103-198).  The checks appear in
source order: student-role guard; lookup filtered on the code string
and `is_active`; expiry (deactivating the row on failure); maximum
uses with the `-1` unlimited sentinel (deactivating the row on
failure); repeat-use; existing access; then the success path appends a
`TeacherCodeUse` row and a `StudentTeacherAccess` row and increments
`use_count`. -/
def use_teacher_code (db : CodesDB) (now : Int) (user : AuthUser) (codeStr : String) :
    UseOutcome × CodesDB :=
  if hasRoleName user "student" = false then
    (UseOutcome.forbidden "Only students can use teacher codes", db)
  else
    match db.teacher_codes.find? (matchesActiveCode codeStr) with
    | none => (UseOutcome.response false msgInvalid, db)
    | some c =>
      if codeExpired c now then
        (UseOutcome.response false msgExpired,
          { db with teacher_codes := deactivateCode db.teacher_codes c.id })
      else if c.max_uses ≠ -1 ∧ c.use_count ≥ c.max_uses then
        (UseOutcome.response false msgExhausted,
          { db with teacher_codes := deactivateCode db.teacher_codes c.id })
      else if db.teacher_code_uses.any (fun u => u.code_id == c.id && u.student_id == user.id) then
        (UseOutcome.response false msgAlreadyUsed, db)
      else if db.student_teacher_access.any (fun a => a.student_id == user.id && a.teacher_id == c.teacher_id) then
        (UseOutcome.response false msgAlreadyAccess, db)
      else
        (UseOutcome.response true msgSuccess,
          { teacher_codes := bumpUseCount db.teacher_codes c.id
            teacher_code_uses := db.teacher_code_uses ++ [{ code_id := c.id, student_id := user.id }]
            student_teacher_access := db.student_teacher_access ++
              [{ student_id := user.id, teacher_id := c.teacher_id, granted_via_code := true }] })

/-- Sequential execution of a list of redemption attempts (one call of
the endpoint per listed caller, threading the store). -/
def runRedeems (db : CodesDB) (now : Int) (users : List AuthUser) (codeStr : String) :
    List UseOutcome × CodesDB :=
  match users with
  | [] => ([], db)
  | u :: rest =>
    let step := use_teacher_code db now u codeStr
    let tail := runRedeems step.2 now rest codeStr
    (step.1 :: tail.1, tail.2)

/-- Whether an endpoint outcome is a successful redemption (the
`success = True` response). -/
def isSuccessOutcome : UseOutcome → Bool
  | UseOutcome.response true _ => true
  | _ => false

/-- The normalized claim map extracted by `get_current_user`
(`app/utils/auth.py`): subject id, optional email and name, and the
verification flag. -/
structure NormClaims where
  subject_id : String
  email : Option String
  name : Option String
  verified : Bool
deriving DecidableEq, Repr

/-- Which of the three verification strategies produced the claims. -/
inductive Strategy where
  | clerkJwt
  | localJwt
  | clerkSession
deriving DecidableEq, Repr

/-- The token-layer failure surfaced by the combined verifier once every
strategy has been exhausted (`auth.py` lines 176-181,
`TOKEN_VERIFICATION_FAILED`). -/
inductive TokenError where
  | tokenVerificationFailed
deriving DecidableEq, Repr

/-- `token.count('.')` from `auth.py` line 134: the number of dot
separators, used as the structural three-part-JWT test. -/
def countDots (t : String) : Nat :=
  (t.data.filter (fun ch => ch = '.')).length

/-- The fallback chain of `get_current_user` after the Clerk JWT
strategy has failed or been skipped (`auth.py` lines 149-181): the
local HMAC JWT (`verify_token`) is tried, then the Clerk session
fallback (`verify_clerk_session`); if both fail, the combined verifier
raises `TOKEN_VERIFICATION_FAILED`. -/
def fallbackLocalThenSession (localVerify sessionVerify : String → Option NormClaims)
    (token : String) : Except TokenError (NormClaims × Strategy) :=
  match localVerify token with
  | some p => Except.ok (p, Strategy.localJwt)
  | none =>
    match sessionVerify token with
    | some p => Except.ok (p, Strategy.clerkSession)
    | none => Except.error TokenError.tokenVerificationFailed

/-- The token-verification phase of `get_current_user` (`auth.py` lines
115-181).  The three cryptographic strategies (`verify_clerk_jwt`,
`verify_token`, `verify_clerk_session`) are abstracted as oracles that
either yield normalized claims or fail.  The Clerk JWKS strategy is
attempted first, and only when the token has exactly two dot
separators; otherwise it is skipped (`auth.py` lines 134-140) and the
flow continues with the local JWT and then the session fallback. -/
def verifyBearerToken (clerkVerify localVerify sessionVerify : String → Option NormClaims)
    (token : String) : Except TokenError (NormClaims × Strategy) :=
  if countDots token = 2 then
    match clerkVerify token with
    | some p => Except.ok (p, Strategy.clerkJwt)
    | none => fallbackLocalThenSession localVerify sessionVerify token
  else
    fallbackLocalThenSession localVerify sessionVerify token

/-- Row of the `users` table as touched by the identity resolver
(`app/models.py` lines 37-78): database id, optional Clerk external id,
optional email value as held by the ORM object, name, flags, and the
names of assigned roles. -/
structure UserRow where
  id : String
  clerk_user_id : Option String
  email : Option String
  name : String
  is_verified : Bool
  is_active : Bool
  roles : List String
deriving DecidableEq, Repr

/-- The slice of the store used by the resolver: user rows plus the
names present in the `roles` table. -/
structure UsersDB where
  users : List UserRow
  role_names : List String
deriving DecidableEq, Repr

/-- Hexadecimal digit test used by the UUID format check. -/
def isHexDigit (ch : Char) : Bool :=
  ch.isDigit || (('a' ≤ ch) && (ch ≤ 'f')) || (('A' ≤ ch) && (ch ≤ 'F'))

/-- Characters the Python `int` constructor strips from both ends of
its string argument (the ASCII whitespace; the subjects handled here
are ASCII). -/
def isPyWs (c : Char) : Bool :=
  c == ' ' || c == '\t' || c == '\n' || c == '\r' || c == '\x0b' || c == '\x0c'

/-- Fuel-driven worker for `removeAll` (the fuel is the length of the
scanned list, so it never runs out). -/
def removeAllAux (sub : List Char) : Nat → List Char → List Char
  | _, [] => []
  | 0, l => l
  | fuel + 1, c :: rest =>
    if sub.isPrefixOf (c :: rest) then
      removeAllAux sub fuel (List.drop sub.length (c :: rest))
    else
      c :: removeAllAux sub fuel rest

/-- Python `str.replace(sub, '')`: delete every non-overlapping
occurrence of `sub`, scanning left to right. -/
def removeAll (sub : List Char) (l : List Char) : List Char :=
  removeAllAux sub l.length l

/-- Python `str.strip('\x7b\x7d')`: shave every leading and trailing
brace character. -/
def stripBraces (l : List Char) : List Char :=
  ((l.dropWhile (fun c => c == '\x7b' || c == '\x7d')).reverse.dropWhile
    (fun c => c == '\x7b' || c == '\x7d')).reverse

/-- Strip the surrounding whitespace the Python `int` constructor
tolerates. -/
def stripPyWs (l : List Char) : List Char :=
  ((l.dropWhile isPyWs).reverse.dropWhile isPyWs).reverse

/-- Continuation of a hexadecimal digit run for `int(s, 16)`: single
underscores are permitted between digits, never doubled or trailing. -/
def hexTail : List Char → Bool
  | [] => true
  | '_' :: c :: rest => isHexDigit c && hexTail rest
  | c :: rest => isHexDigit c && hexTail rest

/-- A nonempty hexadecimal digit run with embedded single underscores. -/
def hexBody : List Char → Bool
  | [] => false
  | c :: rest => isHexDigit c && hexTail rest

/-- Whether Python `int(s, 16)` accepts the string: optional surrounding
whitespace, an optional sign (only `+` can reach this point — every
`-` was deleted beforehand), an optional `0x`/`0X` prefix which may be
followed by one underscore, then a digit run. -/
def pyIntHex (l : List Char) : Bool :=
  let l1 := stripPyWs l
  let l2 := match l1 with
    | '+' :: rest => rest
    | rest => rest
  match l2 with
  | '0' :: 'x' :: rest =>
    (match rest with
     | '_' :: r2 => hexBody r2
     | r2 => hexBody r2)
  | '0' :: 'X' :: rest =>
    (match rest with
     | '_' :: r2 => hexBody r2
     | r2 => hexBody r2)
  | _ => hexBody l2

/-- Whether `uuid.UUID(user_id)` at `auth.py` line 193 parses the
subject (raising `ValueError` otherwise, which diverts the lookup to
`clerk_user_id`).  This mirrors the CPython algorithm for the string
argument: delete every `urn:` then every `uuid:`, strip surrounding
braces, delete every dash, require exactly 32 remaining characters and
that `int(hex, 16)` accepts them — so canonical dashed, undashed
32-hex, braced, urn-prefixed and arbitrarily-dashed forms are all
accepted.  The subsequent `0 <= int < 2^128` range check never fires
here: 32 accepted characters carry at most 32 hex digits. -/
def isUuidString (s : String) : Bool :=
  let l1 := removeAll ("urn:".data) s.data
  let l2 := removeAll ("uuid:".data) l1
  let l3 := (stripBraces l2).filter (fun c => !(c == '-'))
  (l3.length == 32) && pyIntHex l3

/-- Python truthiness of the `email` variable at `auth.py` lines 199 and
230: `None` and the empty string are falsy. -/
def emailTruthy : Option String → Bool
  | none => false
  | some s => !(s == "")

/-- The generic placeholder names of `auth.py` line 238. -/
def genericNames : List String := ["User", "Development User", ""]

/-- The user lookup of `auth.py` lines 191-201: by database id when the
subject parses as a UUID, else by `clerk_user_id`; on a miss, by email
when a truthy email claim is present. -/
def lookupUser (db : UsersDB) (user_id : String) (email : Option String) : Option UserRow :=
  let primary :=
    if isUuidString user_id then
      db.users.find? (fun r => r.id == user_id)
    else
      db.users.find? (fun r => r.clerk_user_id == some user_id)
  match primary with
  | some u => some u
  | none =>
    if emailTruthy email then
      db.users.find? (fun r => r.email == email)
    else
      none

/-- The conservative reconciliation of `auth.py` lines 224-259 for an
existing user.  The three sequential updates of the source are
independent (each condition only reads the field it writes, plus the
incoming claims), so they are embedded as one simultaneous update:
email is replaced when a truthy claim email differs; the name is
replaced only when the incoming name is non-generic and the stored name
is generic or empty; `is_verified` is upgraded to `True` only, never
downgraded. -/
def reconcileUser (u : UserRow) (email : Option String) (name : String)
    (email_verified : Bool) : UserRow :=
  { u with
    email := if emailTruthy email && !(u.email == email) then email else u.email
    name :=
      if !(name == "") && !(genericNames.contains name) &&
          (genericNames.contains u.name || u.name == "") then name
      else u.name
    is_verified := if email_verified && !u.is_verified then true else u.is_verified }

/-- Account-state failure of the resolver (`auth.py` lines 262-267,
`USER_INACTIVE`). -/
inductive AuthError where
  | userInactive
deriving DecidableEq, Repr

/-- The identity object returned by `get_current_user` (`auth.py` lines
274-284), restricted to the fields the claims below reason about. -/
structure ResolvedIdent where
  id : String
  email : Option String
  name : String
  verified : Bool
  roles : List String
deriving DecidableEq, Repr

/-- Projection of a user row to the returned identity object. -/
def identOfRow (u : UserRow) : ResolvedIdent :=
  { id := u.id, email := u.email, name := u.name, verified := u.is_verified,
    roles := u.roles }

/-- The identity-resolution phase of `get_current_user` (`auth.py` lines
191-284): look the user up; on a miss create a row with a fresh
database id, `clerk_user_id` set to the subject, the claim email and
name, the claim verification flag, `is_active = True` and the default
`student` role when that role exists; on a hit apply `reconcileUser`.
The active check then rejects inactive accounts (state changes having
already been committed), else the resolved identity is returned. -/
def resolveUser (db : UsersDB) (user_id : String) (email : Option String)
    (name : String) (email_verified : Bool) (freshId : String) :
    Except AuthError ResolvedIdent × UsersDB :=
  match lookupUser db user_id email with
  | none =>
    let newRow : UserRow :=
      { id := freshId, clerk_user_id := some user_id, email := email, name := name,
        is_verified := email_verified, is_active := true,
        roles := if db.role_names.contains "student" then ["student"] else [] }
    let db1 : UsersDB := { db with users := db.users ++ [newRow] }
    if newRow.is_active = false then (Except.error AuthError.userInactive, db1)
    else (Except.ok (identOfRow newRow), db1)
  | some u =>
    let u1 := reconcileUser u email name email_verified
    let db1 : UsersDB :=
      { db with users := db.users.map (fun r => if r.id == u.id then u1 else r) }
    if u1.is_active = false then (Except.error AuthError.userInactive, db1)
    else (Except.ok (identOfRow u1), db1)

/-- Declared properties of a column, as written in the SQLAlchemy model. -/
structure ColumnSpec where
  nullable : Bool
  unique : Bool
deriving DecidableEq, Repr

/-- The declaration of `users.email` at `app/models.py` line 41:
`email = Column(String, unique=True, index=True, nullable=False)`. -/
def usersEmailColumn : ColumnSpec := { nullable := false, unique := true }

/-- Whether a row satisfies the declared NOT NULL constraint on
`users.email`: a null email is admitted only if the column is nullable. -/
def rowSatisfiesEmailColumn (r : UserRow) : Bool :=
  usersEmailColumn.nullable || r.email.isSome

/-- Adjacent-pair scan for a doubled opening or closing brace. -/
def hasDoubledBrace : List Char → Bool
  | c1 :: c2 :: rest =>
    ((c1 == '\x7b' && c2 == '\x7b') || (c1 == '\x7d' && c2 == '\x7d')) ||
      hasDoubledBrace (c2 :: rest)
  | _ => false

/-- `_is_templated` from `auth.py` lines 118-121: a string value
containing a Clerk template marker (a doubled opening or closing brace,
`"\x7b\x7b" in value or "\x7d\x7d" in value`) indicates a
misconfigured claim template. -/
def isTemplatedValue (s : String) : Bool :=
  hasDoubledBrace s.data

/-- The email sanitization at `auth.py` line 145:
`email = None if _is_templated(raw_email) else raw_email`. -/
def sanitizeEmailClaim (raw : String) : Option String :=
  if isTemplatedValue raw then none else some raw

/-- A role row joined with its permission names (`app/models.py`,
classes `Role` and `Permission`). -/
structure RoleRec where
  name : String
  permissions : List String
deriving DecidableEq, Repr

/-- The resolved caller as consumed by the RBAC gate: the roles it
holds, each carrying its permission names. -/
structure RbacUser where
  roles : List RoleRec
deriving DecidableEq, Repr

/-- `User.has_permission` from `app/models.py` (lines 80-95): true iff
some held role carries the named permission, or some held role carries
the catch-all `admin:all` permission. -/
def has_permission (u : RbacUser) (permission_name : String) : Bool :=
  let has_specific := u.roles.any (fun role => role.permissions.contains permission_name)
  let has_admin_all := u.roles.any (fun role => role.permissions.contains "admin:all")
  has_specific || has_admin_all

/-- Result of a gated request: 401, 403, or the wrapped handler's value. -/
inductive GateResult (ρ : Type) where
  | unauthorized (detail : String)
  | forbidden (detail : String)
  | ok (value : ρ)
deriving DecidableEq, Repr

/-- The `require_permission` decorator of `app/rbac.py` (lines 69-93):
reject 401 when no resolved caller is present, reject 403 (naming the
permission) when `has_permission` fails, else invoke the wrapped
handler.  The handler is modelled as a state transformer so that the
absence of side effects on rejection is visible: on either rejection
the state `s` is returned untouched and the handler is never applied. -/
def require_permission {σ ρ : Type} (permission_name : String)
    (handler : σ → σ × ρ) (current_user : Option RbacUser) (s : σ) :
    GateResult ρ × σ :=
  match current_user with
  | none => (GateResult.unauthorized "Authentication required", s)
  | some u =>
    if has_permission u permission_name = false then
      (GateResult.forbidden ("Permission \x27" ++ permission_name ++ "\x27 required"), s)
    else
      (GateResult.ok (handler s).2, (handler s).1)

/-- Unfolding of the endpoint when the caller lacks the student role. -/
theorem redeem_eq_forbidden (db : CodesDB) (now : Int) (user : AuthUser) (codeStr : String)
    (hrole : hasRoleName user "student" = false) :
    use_teacher_code db now user codeStr =
      (UseOutcome.forbidden "Only students can use teacher codes", db) := by
  simp [use_teacher_code, hrole]

/-- Unfolding of the endpoint when no active row matches the code string. -/
theorem redeem_eq_invalid (db : CodesDB) (now : Int) (user : AuthUser) (codeStr : String)
    (hrole : hasRoleName user "student" = true)
    (hfind : db.teacher_codes.find? (matchesActiveCode codeStr) = none) :
    use_teacher_code db now user codeStr = (UseOutcome.response false msgInvalid, db) := by
  simp [use_teacher_code, hrole, hfind]

/-- Unfolding of the endpoint when the matched code is expired. -/
theorem redeem_eq_expired (db : CodesDB) (now : Int) (user : AuthUser) (codeStr : String)
    (c : TeacherCode)
    (hrole : hasRoleName user "student" = true)
    (hfind : db.teacher_codes.find? (matchesActiveCode codeStr) = some c)
    (hexp : codeExpired c now = true) :
    use_teacher_code db now user codeStr =
      (UseOutcome.response false msgExpired,
        { db with teacher_codes := deactivateCode db.teacher_codes c.id }) := by
  simp [use_teacher_code, hrole, hfind, hexp]

/-- Unfolding of the endpoint when the matched code is unexpired but has
reached its positive maximum-use bound (the sentinel `-1` is exempt). -/
theorem redeem_eq_exhausted (db : CodesDB) (now : Int) (user : AuthUser) (codeStr : String)
    (c : TeacherCode)
    (hrole : hasRoleName user "student" = true)
    (hfind : db.teacher_codes.find? (matchesActiveCode codeStr) = some c)
    (hexp : codeExpired c now = false)
    (hsent : c.max_uses ≠ -1) (hcap : c.max_uses ≤ c.use_count) :
    use_teacher_code db now user codeStr =
      (UseOutcome.response false msgExhausted,
        { db with teacher_codes := deactivateCode db.teacher_codes c.id }) := by
  simp [use_teacher_code, hrole, hfind, hexp, hsent, hcap]

/-- Unfolding of the endpoint on the success path. -/
theorem redeem_eq_success (db : CodesDB) (now : Int) (user : AuthUser) (codeStr : String)
    (c : TeacherCode)
    (hrole : hasRoleName user "student" = true)
    (hfind : db.teacher_codes.find? (matchesActiveCode codeStr) = some c)
    (hexp : codeExpired c now = false)
    (hroom : c.max_uses = -1 ∨ c.use_count < c.max_uses)
    (hused : db.teacher_code_uses.any
      (fun u => u.code_id == c.id && u.student_id == user.id) = false)
    (hacc : db.student_teacher_access.any
      (fun a => a.student_id == user.id && a.teacher_id == c.teacher_id) = false) :
    use_teacher_code db now user codeStr =
      (UseOutcome.response true msgSuccess,
        { teacher_codes := bumpUseCount db.teacher_codes c.id
          teacher_code_uses := db.teacher_code_uses ++ [{ code_id := c.id, student_id := user.id }]
          student_teacher_access := db.student_teacher_access ++
            [{ student_id := user.id, teacher_id := c.teacher_id, granted_via_code := true }] }) := by
  have hnotcap : ¬ (c.max_uses ≠ -1 ∧ c.use_count ≥ c.max_uses) := by
    rcases hroom with h | h
    · exact fun hc => hc.1 h
    · exact fun hc => absurd hc.2 (not_le.mpr h)
  simp [use_teacher_code, hrole, hfind, hexp, hnotcap, hused, hacc]

/-- The lookup filter guarantees code match and activity for the found row. -/
theorem find?_matchesActiveCode {l : List TeacherCode} {s : String} {c : TeacherCode}
    (h : l.find? (matchesActiveCode s) = some c) :
    c.code = s ∧ c.is_active = true := by
  have hm := List.find?_some h
  simp only [matchesActiveCode, Bool.and_eq_true, beq_iff_eq] at hm
  exact hm

/-- Deactivating a row changes no `use_count`. -/
theorem deactivateCode_map_use_count (codes : List TeacherCode) (cid : Nat) :
    (deactivateCode codes cid).map TeacherCode.use_count =
      codes.map TeacherCode.use_count := by
  induction codes with
  | nil => rfl
  | cons a l ih =>
    simp only [deactivateCode, List.map_cons] at ih ⊢
    rw [ih]
    congr 1
    split <;> rfl

/-- Deactivating a row changes no `code` string. -/
theorem deactivateCode_map_code (codes : List TeacherCode) (cid : Nat) :
    (deactivateCode codes cid).map TeacherCode.code = codes.map TeacherCode.code := by
  induction codes with
  | nil => rfl
  | cons a l ih =>
    simp only [deactivateCode, List.map_cons] at ih ⊢
    rw [ih]
    congr 1
    split <;> rfl

/-- C1 counterexample: a fresh, active, non-expiring code with
`max_uses = 0` and `use_count = 0` is claimed to be unlimited and hence
redeemable, but the endpoint rejects it as having reached its maximum
uses (`max_uses != -1 and use_count >= max_uses` holds for `0 >= 0`). -/
theorem C1_counterexample :
    (use_teacher_code
        ⟨[⟨1, "CODE0", "teacher-1", none, 0, 0, true⟩], [], []⟩
        0 ⟨"student-1", ["student"]⟩ "CODE0").1 =
      UseOutcome.response false msgExhausted := by
  decide

/-- C1 (amended): a redemption attempt via `use_teacher_code` succeeds
only if the matched code is active, not expired, and either carries the
sentinel `max_uses = -1` (the only value treated as unlimited) or has
`use_count < max_uses`; a code with `max_uses = 0` or any other value
distinct from `-1` whose `use_count` has reached it is rejected as
exhausted. -/
theorem C1_success_only_if_redeemable (db : CodesDB) (now : Int) (user : AuthUser)
    (codeStr : String) :
    ((use_teacher_code db now user codeStr).1 = UseOutcome.response true msgSuccess →
      ∃ c, db.teacher_codes.find? (matchesActiveCode codeStr) = some c ∧
        c.is_active = true ∧ codeExpired c now = false ∧
        (c.max_uses = -1 ∨ c.use_count < c.max_uses)) ∧
    (∀ c, db.teacher_codes.find? (matchesActiveCode codeStr) = some c →
      hasRoleName user "student" = true → codeExpired c now = false →
      c.max_uses ≠ -1 → c.max_uses ≤ c.use_count →
      (use_teacher_code db now user codeStr).1 = UseOutcome.response false msgExhausted) := by
  constructor
  · intro h
    cases hrole : hasRoleName user "student" with
    | false =>
      rw [redeem_eq_forbidden db now user codeStr hrole] at h
      simp at h
    | true =>
      cases hfind : db.teacher_codes.find? (matchesActiveCode codeStr) with
      | none =>
        rw [redeem_eq_invalid db now user codeStr hrole hfind] at h
        simp at h
      | some c =>
        cases hexp : codeExpired c now with
        | true =>
          rw [redeem_eq_expired db now user codeStr c hrole hfind hexp] at h
          simp at h
        | false =>
          by_cases hcap : c.max_uses ≠ -1 ∧ c.use_count ≥ c.max_uses
          · rw [redeem_eq_exhausted db now user codeStr c hrole hfind hexp hcap.1 hcap.2] at h
            simp at h
          · push_neg at hcap
            refine ⟨c, rfl, (find?_matchesActiveCode hfind).2, hexp, ?_⟩
            by_cases hs : c.max_uses = -1
            · exact Or.inl hs
            · exact Or.inr (hcap hs)
  · intro c hfind hrole hexp hsent hcap
    rw [redeem_eq_exhausted db now user codeStr c hrole hfind hexp hsent hcap]

/-- C1 witness: the amended theorem applied to a concrete store holding
one active code with `max_uses = 2` already used twice. -/
theorem C1_success_only_if_redeemable_witness :
    (use_teacher_code
        ⟨[⟨7, "CODE7", "teacher-7", none, 2, 2, true⟩], [], []⟩
        0 ⟨"student-7", ["student"]⟩ "CODE7").1 =
      UseOutcome.response false msgExhausted :=
  (C1_success_only_if_redeemable
      ⟨[⟨7, "CODE7", "teacher-7", none, 2, 2, true⟩], [], []⟩
      0 ⟨"student-7", ["student"]⟩ "CODE7").2
    ⟨7, "CODE7", "teacher-7", none, 2, 2, true⟩
    (by decide) (by decide) (by decide) (by decide) (by decide)

/-- C2 counterexample: an inactive code that is unexpired and far under
its maximum uses is rejected with the same message as a code that does
not exist at all — the `is_active` flag is enforced inside the lookup
(step 1), not as a fourth check, and no distinct inactive reason
exists. -/
theorem C2_counterexample :
    (use_teacher_code
        ⟨[⟨1, "CODE1", "teacher-1", none, 5, 0, false⟩], [], []⟩
        0 ⟨"student-1", ["student"]⟩ "CODE1").1 =
      UseOutcome.response false msgInvalid ∧
    (use_teacher_code ⟨[], [], []⟩ 0 ⟨"student-1", ["student"]⟩ "CODE1").1 =
      UseOutcome.response false msgInvalid := by
  constructor <;> decide

/-- C2 (amended): for a student caller the redeem operation validates in
this order, short-circuiting on the first failure: (1) an active row
with the presented code string exists — existence and `is_active` are
one combined check whose failure reason is the shared
"Invalid or expired code" string; (2) the code is not expired (reason
"Code has expired"); (3) the code is under its maximum uses or carries
the sentinel `max_uses = -1` (reason "Code has reached maximum uses").
Expired and exhausted failures get specific distinct reasons; an
inactive code is indistinguishable from an unknown one. -/
theorem C2_validation_order (db : CodesDB) (now : Int) (user : AuthUser) (codeStr : String)
    (hrole : hasRoleName user "student" = true) :
    (db.teacher_codes.find? (matchesActiveCode codeStr) = none →
      use_teacher_code db now user codeStr = (UseOutcome.response false msgInvalid, db)) ∧
    (∀ c, db.teacher_codes.find? (matchesActiveCode codeStr) = some c →
      codeExpired c now = true →
      (use_teacher_code db now user codeStr).1 = UseOutcome.response false msgExpired) ∧
    (∀ c, db.teacher_codes.find? (matchesActiveCode codeStr) = some c →
      codeExpired c now = false → c.max_uses ≠ -1 → c.max_uses ≤ c.use_count →
      (use_teacher_code db now user codeStr).1 = UseOutcome.response false msgExhausted) := by
  refine ⟨fun hfind => redeem_eq_invalid db now user codeStr hrole hfind,
    fun c hfind hexp => ?_, fun c hfind hexp hsent hcap => ?_⟩
  · rw [redeem_eq_expired db now user codeStr c hrole hfind hexp]
  · rw [redeem_eq_exhausted db now user codeStr c hrole hfind hexp hsent hcap]

/-- C2 witness: the amended validation order applied to a concrete
expired-but-under-capacity code (the expiry check fires before the
max-uses check). -/
theorem C2_validation_order_witness :
    (use_teacher_code
        ⟨[⟨2, "CODE2", "teacher-2", some 10, 5, 0, true⟩], [], []⟩
        99 ⟨"student-2", ["student"]⟩ "CODE2").1 =
      UseOutcome.response false msgExpired :=
  (C2_validation_order
      ⟨[⟨2, "CODE2", "teacher-2", some 10, 5, 0, true⟩], [], []⟩
      99 ⟨"student-2", ["student"]⟩ "CODE2" (by decide)).2.1
    ⟨2, "CODE2", "teacher-2", some 10, 5, 0, true⟩ (by decide) (by decide)

/-- C4: a redemption attempt on a code whose `expires_at` lies in the
past fails with the expired reason even if the code is active and under
its maximum uses, and the failure creates no teacher-student link, adds
no use record, and leaves every `use_count` unchanged. -/
theorem C4_expired_code_rejected_without_side_effects
    (db : CodesDB) (now : Int) (user : AuthUser) (codeStr : String)
    (c : TeacherCode) (t : Int)
    (hrole : hasRoleName user "student" = true)
    (hfind : db.teacher_codes.find? (matchesActiveCode codeStr) = some c)
    (hexp : c.expires_at = some t) (ht : t < now)
    (hact : c.is_active = true) (hunder : c.use_count < c.max_uses) :
    (use_teacher_code db now user codeStr).1 = UseOutcome.response false msgExpired ∧
    (use_teacher_code db now user codeStr).2.teacher_code_uses = db.teacher_code_uses ∧
    (use_teacher_code db now user codeStr).2.student_teacher_access =
      db.student_teacher_access ∧
    (use_teacher_code db now user codeStr).2.teacher_codes.map TeacherCode.use_count =
      db.teacher_codes.map TeacherCode.use_count := by
  have hexpb : codeExpired c now = true := by
    simp [codeExpired, hexp, ht]
  rw [redeem_eq_expired db now user codeStr c hrole hfind hexpb]
  exact ⟨rfl, rfl, rfl, deactivateCode_map_use_count db.teacher_codes c.id⟩

/-- C4 witness: the theorem applied to a concrete store holding one
active code that expired one time unit before the attempt. -/
theorem C4_expired_code_rejected_without_side_effects_witness :
    (use_teacher_code
        ⟨[⟨4, "CODE4", "teacher-4", some 0, 5, 0, true⟩], [], []⟩
        1 ⟨"student-4", ["student"]⟩ "CODE4").1 =
      UseOutcome.response false msgExpired :=
  (C4_expired_code_rejected_without_side_effects
      ⟨[⟨4, "CODE4", "teacher-4", some 0, 5, 0, true⟩], [], []⟩
      1 ⟨"student-4", ["student"]⟩ "CODE4"
      ⟨4, "CODE4", "teacher-4", some 0, 5, 0, true⟩ 0
      (by decide) (by decide) (by decide) (by decide) (by decide) (by decide)).1

/-- After deactivating the row with identifier `cid`, no row carrying
the code string `s` is still active (given `s` identifies that row). -/
theorem deactivateCode_inactive (codes : List TeacherCode) (cid : Nat) (s : String)
    (huniq : ∀ c' ∈ codes, c'.code = s → c'.id = cid) :
    ∀ x ∈ deactivateCode codes cid, x.code = s → x.is_active = false := by
  intro x hx hcode
  simp only [deactivateCode, List.mem_map] at hx
  obtain ⟨c0, hc0, hx⟩ := hx
  by_cases hid : c0.id = cid
  · rw [← hx, if_pos hid]
  · rw [← hx, if_neg hid] at hcode ⊢
    exact absurd (huniq c0 hc0 hcode) hid

/-- After deactivating the row carrying code string `s`, the lookup
query that filters on `is_active` no longer finds any row for `s`. -/
theorem find?_deactivateCode_none (codes : List TeacherCode) (cid : Nat) (s : String)
    (huniq : ∀ c' ∈ codes, c'.code = s → c'.id = cid) :
    (deactivateCode codes cid).find? (matchesActiveCode s) = none := by
  rw [List.find?_eq_none]
  intro x hx
  simp only [matchesActiveCode, Bool.and_eq_true, beq_iff_eq, not_and]
  intro hcode
  simp [deactivateCode_inactive codes cid s huniq x hx hcode]

/-- C10: a redemption attempt that fails because the code is expired, or
because `use_count` has reached a `max_uses` distinct from the unlimited
sentinel, persists `is_active = false` on that row; every later
redemption of the same code string (by any student, at any time) then
fails at the combined existence/active lookup with the
"Invalid or expired code" reason, leaving the store unchanged. -/
theorem C10_failed_attempt_deactivates_code
    (db : CodesDB) (now : Int) (user : AuthUser) (codeStr : String) (c : TeacherCode)
    (hrole : hasRoleName user "student" = true)
    (hfind : db.teacher_codes.find? (matchesActiveCode codeStr) = some c)
    (huniq : ∀ c' ∈ db.teacher_codes, c'.code = codeStr → c'.id = c.id)
    (hfail : codeExpired c now = true ∨
      (codeExpired c now = false ∧ c.max_uses ≠ -1 ∧ c.max_uses ≤ c.use_count)) :
    ((use_teacher_code db now user codeStr).1 = UseOutcome.response false msgExpired ∨
      (use_teacher_code db now user codeStr).1 = UseOutcome.response false msgExhausted) ∧
    (∀ c' ∈ (use_teacher_code db now user codeStr).2.teacher_codes,
      c'.code = codeStr → c'.is_active = false) ∧
    (∀ (later : Int) (user' : AuthUser), hasRoleName user' "student" = true →
      use_teacher_code (use_teacher_code db now user codeStr).2 later user' codeStr =
        (UseOutcome.response false msgInvalid, (use_teacher_code db now user codeStr).2)) := by
  have htail2 : ∀ x ∈ deactivateCode db.teacher_codes c.id, x.code = codeStr →
      x.is_active = false :=
    deactivateCode_inactive db.teacher_codes c.id codeStr huniq
  have hnone : (deactivateCode db.teacher_codes c.id).find? (matchesActiveCode codeStr) = none :=
    find?_deactivateCode_none db.teacher_codes c.id codeStr huniq
  rcases hfail with hexp | ⟨hexp, hsent, hcap⟩
  · rw [redeem_eq_expired db now user codeStr c hrole hfind hexp]
    exact ⟨Or.inl rfl, htail2,
      fun later user' hr =>
        redeem_eq_invalid { db with teacher_codes := deactivateCode db.teacher_codes c.id }
          later user' codeStr hr hnone⟩
  · rw [redeem_eq_exhausted db now user codeStr c hrole hfind hexp hsent hcap]
    exact ⟨Or.inr rfl, htail2,
      fun later user' hr =>
        redeem_eq_invalid { db with teacher_codes := deactivateCode db.teacher_codes c.id }
          later user' codeStr hr hnone⟩

/-- C10 witness: after a concrete expired attempt, a second student at a
later time gets the invalid-code reason on the same code string. -/
theorem C10_failed_attempt_deactivates_code_witness :
    use_teacher_code
        (use_teacher_code
          ⟨[⟨10, "CODEX", "teacher-10", some 0, 5, 0, true⟩], [], []⟩
          1 ⟨"student-10", ["student"]⟩ "CODEX").2
        5 ⟨"student-11", ["student"]⟩ "CODEX" =
      (UseOutcome.response false msgInvalid,
        (use_teacher_code
          ⟨[⟨10, "CODEX", "teacher-10", some 0, 5, 0, true⟩], [], []⟩
          1 ⟨"student-10", ["student"]⟩ "CODEX").2) :=
  (C10_failed_attempt_deactivates_code
      ⟨[⟨10, "CODEX", "teacher-10", some 0, 5, 0, true⟩], [], []⟩
      1 ⟨"student-10", ["student"]⟩ "CODEX"
      ⟨10, "CODEX", "teacher-10", some 0, 5, 0, true⟩
      (by decide) (by decide) (by decide) (Or.inl (by decide))).2.2
    5 ⟨"student-11", ["student"]⟩ (by decide)

/-- Mapping a constant function is `List.replicate`. -/
theorem map_const_eq_replicate {α β : Type} (l : List α) (b : β) :
    l.map (fun _ => b) = List.replicate l.length b := by
  induction l with
  | nil => rfl
  | cons a t ih => simp [List.replicate, ih]

/-- Running redemption attempts over an appended list of callers splits
into the two runs threaded through the store. -/
theorem runRedeems_append (now : Int) (s : String) (l1 l2 : List AuthUser) :
    ∀ db : CodesDB,
    runRedeems db now (l1 ++ l2) s =
      ((runRedeems db now l1 s).1 ++ (runRedeems (runRedeems db now l1 s).2 now l2 s).1,
        (runRedeems (runRedeems db now l1 s).2 now l2 s).2) := by
  induction l1 with
  | nil => intro db; simp [runRedeems]
  | cons u rest ih => intro db; simp [runRedeems, ih]

/-- For a store holding one code that is active, unexpired and has
enough remaining capacity, a run of fresh, distinct student callers all
succeed, appending one use record and one access record each and
raising `use_count` by the number of callers. -/
theorem runRedeems_all_succeed (now : Int) (s : String) :
    ∀ (students : List AuthUser) (c : TeacherCode) (us : List TeacherCodeUse)
      (ac : List StudentTeacherAccess),
    c.code = s → c.is_active = true → codeExpired c now = false →
    (∀ u ∈ students, hasRoleName u "student" = true) →
    (students.map AuthUser.id).Nodup →
    (c.max_uses = -1 ∨ c.use_count + students.length ≤ c.max_uses) →
    (∀ u ∈ students,
      us.any (fun r => r.code_id == c.id && r.student_id == u.id) = false) →
    (∀ u ∈ students,
      ac.any (fun a => a.student_id == u.id && a.teacher_id == c.teacher_id) = false) →
    runRedeems ⟨[c], us, ac⟩ now students s =
      (students.map (fun _ => UseOutcome.response true msgSuccess),
        ⟨[{ c with use_count := c.use_count + students.length }],
          us ++ students.map (fun u => { code_id := c.id, student_id := u.id }),
          ac ++ students.map
            (fun u => { student_id := u.id, teacher_id := c.teacher_id,
                        granted_via_code := true })⟩) := by
  intro students
  induction students with
  | nil =>
    intro c us ac _ _ _ _ _ _ _ _
    simp [runRedeems]
  | cons u rest ih =>
    intro c us ac hcode hact hexp hroles hnodup hroom hus hac
    have hfind : List.find? (matchesActiveCode s) [c] = some c := by
      simp [List.find?, matchesActiveCode, hcode, hact]
    have hroom1 : c.max_uses = -1 ∨ c.use_count < c.max_uses := by
      rcases hroom with h | h
      · exact Or.inl h
      · right
        simp only [List.length_cons] at h
        omega
    have hstep := redeem_eq_success ⟨[c], us, ac⟩ now u s c
      (hroles u (by simp)) hfind hexp hroom1 (hus u (by simp)) (hac u (by simp))
    have hbump : bumpUseCount [c] c.id = [{ c with use_count := c.use_count + 1 }] := by
      simp [bumpUseCount]
    have hnodup' : (∀ x ∈ rest, ¬ x.id = u.id) ∧ (rest.map AuthUser.id).Nodup := by
      simpa using hnodup
    have ihh := ih { c with use_count := c.use_count + 1 }
      (us ++ [{ code_id := c.id, student_id := u.id }])
      (ac ++ [{ student_id := u.id, teacher_id := c.teacher_id, granted_via_code := true }])
      hcode hact hexp
      (fun v hv => hroles v (by simp [hv]))
      hnodup'.2
      (by
        rcases hroom with h | h
        · exact Or.inl h
        · right
          simp only [List.length_cons] at h
          show c.use_count + 1 + (rest.length : Int) ≤ c.max_uses
          omega)
      (by
        intro v hv
        have h1 := hus v (List.mem_cons_of_mem u hv)
        have hne : ¬ u.id = v.id :=
          fun heq => hnodup'.1 v hv heq.symm
        rw [List.any_append]
        simp [h1, hne])
      (by
        intro v hv
        have h1 := hac v (List.mem_cons_of_mem u hv)
        have hne : ¬ u.id = v.id :=
          fun heq => hnodup'.1 v hv heq.symm
        rw [List.any_append]
        simp [h1, hne])
    simp only [runRedeems]
    rw [hstep, hbump, ihh]
    simp only [List.map_cons, List.length_cons, List.cons_append, List.append_assoc,
      List.singleton_append, Prod.mk.injEq, CodesDB.mk.injEq, TeacherCode.mk.injEq,
      eq_self_iff_true, and_true, true_and]
    refine ⟨?_, by simp, by simp⟩
    simp only [List.cons.injEq, and_true, TeacherCode.mk.injEq, eq_self_iff_true, true_and]
    push_cast
    omega

/-- Case analysis for one redemption attempt against a single-row code
table: the row keeps its `max_uses`, and its `use_count` grows by one
exactly on a successful outcome (which requires remaining capacity). -/
theorem use_teacher_code_singleton (now : Int) (u : AuthUser) (s : String)
    (c : TeacherCode) (us : List TeacherCodeUse) (ac : List StudentTeacherAccess) :
    ∃ cNew : TeacherCode,
      (use_teacher_code ⟨[c], us, ac⟩ now u s).2.teacher_codes = [cNew] ∧
      cNew.max_uses = c.max_uses ∧
      ((isSuccessOutcome (use_teacher_code ⟨[c], us, ac⟩ now u s).1 = true ∧
          cNew.use_count = c.use_count + 1 ∧
          (c.max_uses = -1 ∨ c.use_count < c.max_uses)) ∨
        (isSuccessOutcome (use_teacher_code ⟨[c], us, ac⟩ now u s).1 = false ∧
          cNew.use_count = c.use_count)) := by
  cases hrole : hasRoleName u "student" with
  | false =>
    rw [redeem_eq_forbidden ⟨[c], us, ac⟩ now u s hrole]
    exact ⟨c, rfl, rfl, Or.inr ⟨rfl, rfl⟩⟩
  | true =>
    cases hfind : List.find? (matchesActiveCode s) [c] with
    | none =>
      rw [redeem_eq_invalid ⟨[c], us, ac⟩ now u s hrole hfind]
      exact ⟨c, rfl, rfl, Or.inr ⟨rfl, rfl⟩⟩
    | some c0 =>
      have hc0 : c0 = c := by
        have := List.mem_of_find?_eq_some hfind
        simpa using this
      subst hc0
      cases hexp : codeExpired c0 now with
      | true =>
        rw [redeem_eq_expired ⟨[c0], us, ac⟩ now u s c0 hrole hfind hexp]
        refine ⟨{ c0 with is_active := false }, ?_, rfl, Or.inr ⟨rfl, rfl⟩⟩
        simp [deactivateCode]
      | false =>
        by_cases hcap : c0.max_uses ≠ -1 ∧ c0.use_count ≥ c0.max_uses
        · rw [redeem_eq_exhausted ⟨[c0], us, ac⟩ now u s c0 hrole hfind hexp hcap.1 hcap.2]
          refine ⟨{ c0 with is_active := false }, ?_, rfl, Or.inr ⟨rfl, rfl⟩⟩
          simp [deactivateCode]
        · push_neg at hcap
          have hroom : c0.max_uses = -1 ∨ c0.use_count < c0.max_uses := by
            by_cases hs : c0.max_uses = -1
            · exact Or.inl hs
            · exact Or.inr (hcap hs)
          cases hused : us.any (fun r => r.code_id == c0.id && r.student_id == u.id) with
          | true =>
            have : use_teacher_code ⟨[c0], us, ac⟩ now u s =
                (UseOutcome.response false msgAlreadyUsed, ⟨[c0], us, ac⟩) := by
              have hnotcap : ¬ (c0.max_uses ≠ -1 ∧ c0.use_count ≥ c0.max_uses) := by
                rcases hroom with h | h
                · exact fun hc => hc.1 h
                · exact fun hc => absurd hc.2 (not_le.mpr h)
              simp [use_teacher_code, hrole, hfind, hexp, hnotcap, hused]
            rw [this]
            exact ⟨c0, rfl, rfl, Or.inr ⟨rfl, rfl⟩⟩
          | false =>
            cases hacc : ac.any (fun a => a.student_id == u.id && a.teacher_id == c0.teacher_id) with
            | true =>
              have : use_teacher_code ⟨[c0], us, ac⟩ now u s =
                  (UseOutcome.response false msgAlreadyAccess, ⟨[c0], us, ac⟩) := by
                have hnotcap : ¬ (c0.max_uses ≠ -1 ∧ c0.use_count ≥ c0.max_uses) := by
                  rcases hroom with h | h
                  · exact fun hc => hc.1 h
                  · exact fun hc => absurd hc.2 (not_le.mpr h)
                simp [use_teacher_code, hrole, hfind, hexp, hnotcap, hused, hacc]
              rw [this]
              exact ⟨c0, rfl, rfl, Or.inr ⟨rfl, rfl⟩⟩
            | false =>
              rw [redeem_eq_success ⟨[c0], us, ac⟩ now u s c0 hrole hfind hexp hroom hused hacc]
              refine ⟨{ c0 with use_count := c0.use_count + 1 }, ?_, rfl,
                Or.inl ⟨rfl, rfl, hroom⟩⟩
              simp [bumpUseCount]

/-- A run of arbitrary redemption attempts against a single code whose
`max_uses` is not the unlimited sentinel produces at most
`max_uses - use_count` successes. -/
theorem runRedeems_success_bound (now : Int) (s : String) :
    ∀ (students : List AuthUser) (c : TeacherCode) (us : List TeacherCodeUse)
      (ac : List StudentTeacherAccess), c.max_uses ≠ -1 →
    (runRedeems ⟨[c], us, ac⟩ now students s).1.countP isSuccessOutcome ≤
      (c.max_uses - c.use_count).toNat := by
  intro students
  induction students with
  | nil =>
    intro c us ac _
    simp [runRedeems]
  | cons u rest ih =>
    intro c us ac hsent
    obtain ⟨cN, hcodes, hmax, hcase⟩ := use_teacher_code_singleton now u s c us ac
    have hdb : (use_teacher_code ⟨[c], us, ac⟩ now u s).2 =
        ⟨[cN], (use_teacher_code ⟨[c], us, ac⟩ now u s).2.teacher_code_uses,
          (use_teacher_code ⟨[c], us, ac⟩ now u s).2.student_teacher_access⟩ := by
      rw [← hcodes]
    have ihh := ih cN (use_teacher_code ⟨[c], us, ac⟩ now u s).2.teacher_code_uses
      (use_teacher_code ⟨[c], us, ac⟩ now u s).2.student_teacher_access
      (hmax ▸ hsent)
    simp only [runRedeems, List.countP_cons]
    rw [← hdb] at ihh
    rcases hcase with ⟨hsucc, hcount, hroom⟩ | ⟨hfail, hcount⟩
    · rw [hsucc]
      have hlt : c.use_count < c.max_uses := by
        rcases hroom with h | h
        · exact absurd h hsent
        · exact h
      rw [hmax, hcount] at ihh
      simp only [eq_self_iff_true, if_true]
      omega
    · rw [hfail]
      rw [hmax, hcount] at ihh
      simp only [Bool.false_eq_true, if_false]
      omega

/-- C3: for a fresh, active, unexpired code with `max_uses = N > 0`,
a sequential run of `N + 1` distinct fresh students produces exactly
`N` successes followed by the exhausted rejection; the code ends with
`use_count = N`, one use record and one access record per success were
appended, and no run of attempts of any length ever produces more than
`N` successes. -/
theorem C3_code_exhaustion
    (now : Int) (c : TeacherCode) (N : Nat)
    (us : List TeacherCodeUse) (ac : List StudentTeacherAccess)
    (students : List AuthUser)
    (hact : c.is_active = true) (hexp : codeExpired c now = false)
    (hmax : c.max_uses = (N : Int)) (hpos : 0 < N) (hcount : c.use_count = 0)
    (hlen : students.length = N + 1)
    (hroles : ∀ u ∈ students, hasRoleName u "student" = true)
    (hnodup : (students.map AuthUser.id).Nodup)
    (hfreshU : ∀ u ∈ students,
      us.any (fun r => r.code_id == c.id && r.student_id == u.id) = false)
    (hfreshA : ∀ u ∈ students,
      ac.any (fun a => a.student_id == u.id && a.teacher_id == c.teacher_id) = false) :
    (runRedeems ⟨[c], us, ac⟩ now students c.code).1 =
        List.replicate N (UseOutcome.response true msgSuccess) ++
          [UseOutcome.response false msgExhausted] ∧
    (runRedeems ⟨[c], us, ac⟩ now students c.code).2.teacher_codes.map
        TeacherCode.use_count = [(N : Int)] ∧
    (runRedeems ⟨[c], us, ac⟩ now students c.code).2.teacher_code_uses.length =
        us.length + N ∧
    (runRedeems ⟨[c], us, ac⟩ now students c.code).2.student_teacher_access.length =
        ac.length + N ∧
    ∀ attempts : List AuthUser,
      (runRedeems ⟨[c], us, ac⟩ now attempts c.code).1.countP isSuccessOutcome ≤ N := by
  have hsplit : students = students.take N ++ students.drop N :=
    (List.take_append_drop N students).symm
  have hlen1 : (students.take N).length = N := by
    rw [List.length_take]
    omega
  obtain ⟨w, hw⟩ : ∃ w, students.drop N = [w] := by
    apply List.length_eq_one.mp
    rw [List.length_drop, hlen]
    omega
  have hrun1 := runRedeems_all_succeed now c.code (students.take N) c us ac rfl hact hexp
    (fun v hv => hroles v ((List.take_sublist N students).subset hv))
    (hnodup.sublist ((List.take_sublist N students).map AuthUser.id))
    (Or.inr (by rw [hcount, hmax, hlen1]; omega))
    (fun v hv => hfreshU v ((List.take_sublist N students).subset hv))
    (fun v hv => hfreshA v ((List.take_sublist N students).subset hv))
  rw [hcount, hlen1] at hrun1
  simp only [zero_add] at hrun1
  have hwmem : w ∈ students := by
    refine (List.drop_sublist N students).subset ?_
    rw [hw]
    exact List.mem_singleton_self w
  have hfindN : List.find? (matchesActiveCode c.code)
      [{ c with use_count := (N : Int) }] = some { c with use_count := (N : Int) } := by
    simp [List.find?, matchesActiveCode, hact]
  have hstep2 := redeem_eq_exhausted
    ⟨[{ c with use_count := (N : Int) }],
      us ++ (students.take N).map (fun u => { code_id := c.id, student_id := u.id }),
      ac ++ (students.take N).map
        (fun u => { student_id := u.id, teacher_id := c.teacher_id,
                    granted_via_code := true })⟩
    now w c.code { c with use_count := (N : Int) }
    (hroles w hwmem) hfindN hexp
    (by show c.max_uses ≠ -1; rw [hmax]; omega)
    (by show c.max_uses ≤ (N : Int); rw [hmax])
  have hfull : runRedeems ⟨[c], us, ac⟩ now students c.code =
      ((students.take N).map (fun _ => UseOutcome.response true msgSuccess) ++
          [UseOutcome.response false msgExhausted],
        ⟨deactivateCode [{ c with use_count := (N : Int) }] c.id,
          us ++ (students.take N).map (fun u => { code_id := c.id, student_id := u.id }),
          ac ++ (students.take N).map
            (fun u => { student_id := u.id, teacher_id := c.teacher_id,
                        granted_via_code := true })⟩) := by
    conv_lhs => rw [hsplit]
    rw [runRedeems_append, hrun1, hw]
    simp only [runRedeems]
    rw [hstep2]
  refine ⟨?_, ?_, ?_, ?_, ?_⟩
  · rw [hfull, map_const_eq_replicate, hlen1]
  · rw [hfull]
    simp [deactivateCode]
  · rw [hfull]
    simp [hlen1]
    omega
  · rw [hfull]
    simp [hlen1]
    omega
  · intro attempts
    have hb := runRedeems_success_bound now c.code attempts c us ac
      (by rw [hmax]; omega)
    rw [hmax, hcount] at hb
    omega

/-- C3 witness: a concrete `max_uses = 1` code with two distinct fresh
students gives one success followed by the exhausted rejection. -/
theorem C3_code_exhaustion_witness :
    (runRedeems
        ⟨[⟨3, "CODE3", "teacher-3", none, 1, 0, true⟩], [], []⟩
        0 [⟨"student-3a", ["student"]⟩, ⟨"student-3b", ["student"]⟩] "CODE3").1 =
      List.replicate 1 (UseOutcome.response true msgSuccess) ++
        [UseOutcome.response false msgExhausted] :=
  (C3_code_exhaustion 0 ⟨3, "CODE3", "teacher-3", none, 1, 0, true⟩ 1 [] []
      [⟨"student-3a", ["student"]⟩, ⟨"student-3b", ["student"]⟩]
      (by decide) (by decide) (by decide) (by decide) (by decide) (by decide)
      (by decide) (by decide) (by decide) (by decide)).1

/-- C5 counterexample: on a structurally valid three-part token that
both the Clerk JWKS strategy and the local HMAC strategy would accept
(with different claims), the combined verifier returns the Clerk
claims — the local strategy is not the one tried first. -/
theorem C5_counterexample :
    verifyBearerToken
        (fun t => if t == "h.p.s" then some ⟨"user_clerk", none, none, false⟩ else none)
        (fun t => if t == "h.p.s" then some ⟨"user_local", none, none, false⟩ else none)
        (fun _ => none) "h.p.s" =
      Except.ok (⟨"user_clerk", none, none, false⟩, Strategy.clerkJwt) ∧
    (fun t => if t == "h.p.s" then some (⟨"user_local", none, none, false⟩ : NormClaims) else none)
        "h.p.s" = some ⟨"user_local", none, none, false⟩ ∧
    (⟨"user_clerk", none, none, false⟩ : NormClaims) ≠ ⟨"user_local", none, none, false⟩ := by
  refine ⟨rfl, rfl, by decide⟩

/-- C5 (amended): the combined verifier tries the three strategies in a
fixed fallback order with the external JWKS-verified Clerk JWT strategy
first; that strategy is attempted only when the token is structurally a
three-part JWT (exactly two dot separators) and is skipped otherwise;
the local HMAC JWT strategy is tried next and the opaque session
fallback last; and verification fails with `TokenVerificationFailed`
exactly when every applicable strategy has been exhausted. -/
theorem C5_fallback_order (cv lv sv : String → Option NormClaims) (t : String) :
    (countDots t ≠ 2 → verifyBearerToken cv lv sv t = fallbackLocalThenSession lv sv t) ∧
    (∀ p, countDots t = 2 → cv t = some p →
      verifyBearerToken cv lv sv t = Except.ok (p, Strategy.clerkJwt)) ∧
    (countDots t = 2 → cv t = none →
      verifyBearerToken cv lv sv t = fallbackLocalThenSession lv sv t) ∧
    (∀ p, lv t = some p →
      fallbackLocalThenSession lv sv t = Except.ok (p, Strategy.localJwt)) ∧
    (∀ p, lv t = none → sv t = some p →
      fallbackLocalThenSession lv sv t = Except.ok (p, Strategy.clerkSession)) ∧
    (verifyBearerToken cv lv sv t = Except.error TokenError.tokenVerificationFailed ↔
      ((countDots t ≠ 2 ∨ cv t = none) ∧ lv t = none ∧ sv t = none)) := by
  refine ⟨fun hd => by simp [verifyBearerToken, hd],
    fun p hd hc => by simp [verifyBearerToken, hd, hc],
    fun hd hc => by simp [verifyBearerToken, hd, hc],
    fun p hl => by simp [fallbackLocalThenSession, hl],
    fun p hl hs => by simp [fallbackLocalThenSession, hl, hs],
    ?_⟩
  constructor
  · intro h
    by_cases hd : countDots t = 2
    · cases hc : cv t with
      | some p => simp [verifyBearerToken, hd, hc] at h
      | none =>
        cases hl : lv t with
        | some p => simp [verifyBearerToken, fallbackLocalThenSession, hd, hc, hl] at h
        | none =>
          cases hs : sv t with
          | some p => simp [verifyBearerToken, fallbackLocalThenSession, hd, hc, hl, hs] at h
          | none => exact ⟨Or.inr rfl, rfl, rfl⟩
    · cases hl : lv t with
      | some p => simp [verifyBearerToken, fallbackLocalThenSession, hd, hl] at h
      | none =>
        cases hs : sv t with
        | some p => simp [verifyBearerToken, fallbackLocalThenSession, hd, hl, hs] at h
        | none => exact ⟨Or.inl hd, rfl, rfl⟩
  · rintro ⟨hc, hl, hs⟩
    by_cases hd : countDots t = 2
    · rcases hc with hd2 | hc
      · exact absurd hd hd2
      · simp [verifyBearerToken, fallbackLocalThenSession, hd, hc, hl, hs]
    · simp [verifyBearerToken, fallbackLocalThenSession, hd, hl, hs]

/-- C5 witness: the amended characterization applied to a concrete
token on which every strategy fails. -/
theorem C5_fallback_order_witness :
    verifyBearerToken (fun _ => none) (fun _ => none) (fun _ => none) "not-a-jwt" =
      Except.error TokenError.tokenVerificationFailed :=
  ((C5_fallback_order (fun _ => none) (fun _ => none) (fun _ => none)
      "not-a-jwt").2.2.2.2.2).mpr ⟨Or.inl (by decide), rfl, rfl⟩

/-- C8: the permission gate rejects with the 401-equivalent when no
resolved caller is present and with the 403-equivalent (naming the
permission) when the caller lacks the permission; in either case the
returned state equals the incoming state for every possible handler, so
the wrapped handler never executes and no handler-level mutation
occurs. -/
theorem C8_require_permission_short_circuit {σ ρ : Type} (permission_name : String)
    (handler : σ → σ × ρ) (s : σ) :
    require_permission permission_name handler none s =
      (GateResult.unauthorized "Authentication required", s) ∧
    (∀ u : RbacUser, has_permission u permission_name = false →
      require_permission permission_name handler (some u) s =
        (GateResult.forbidden ("Permission \x27" ++ permission_name ++ "\x27 required"), s)) := by
  refine ⟨rfl, fun u hperm => ?_⟩
  simp [require_permission, hperm]

/-- C8 witness: the gate applied to a concrete counter-mutating handler
and a caller with no roles: the handler does not run and the counter
state is unchanged. -/
theorem C8_require_permission_short_circuit_witness :
    require_permission "course:write" (fun n : Nat => (n + 1, n)) (some ⟨[]⟩) 0 =
      (GateResult.forbidden ("Permission \x27" ++ "course:write" ++ "\x27 required"), 0) :=
  (C8_require_permission_short_circuit "course:write" (fun n : Nat => (n + 1, n)) 0).2
    ⟨[]⟩ (by decide)

/-- C9: the `users.email` column is declared NOT NULL, yet just-in-time
provisioning from a claims map whose email is a templated placeholder
sanitizes the email to `None` and builds the new user row with a null
email — a row that violates the declared column constraint, so the
claimed "store admits null email and provisioning succeeds" behavior
conflicts with the model declaration. -/
theorem C9_null_email_violates_declared_column :
    sanitizeEmailClaim "\x7b\x7buser.primary_email_address\x7d\x7d" = none ∧
    usersEmailColumn.nullable = false ∧
    (resolveUser ⟨[], ["student"]⟩ "user_2abc"
        (sanitizeEmailClaim "\x7b\x7buser.primary_email_address\x7d\x7d") "X" false
        "uid-9").2.users.map UserRow.email = [none] ∧
    ∀ r ∈ (resolveUser ⟨[], ["student"]⟩ "user_2abc"
        (sanitizeEmailClaim "\x7b\x7buser.primary_email_address\x7d\x7d") "X" false
        "uid-9").2.users, rowSatisfiesEmailColumn r = false := by
  refine ⟨by decide, by decide, by decide, by decide⟩

/-- Reconciliation never clears an already-set verification flag. -/
theorem reconcileUser_keeps_verified (u : UserRow) (e : Option String) (n : String)
    (v : Bool) (h : u.is_verified = true) :
    (reconcileUser u e n v).is_verified = true := by
  simp [reconcileUser, h]

/-- A row returned by the lookup is a row of the store. -/
theorem lookupUser_mem (db : UsersDB) (sub : String) (email : Option String) (u : UserRow)
    (h : lookupUser db sub email = some u) : u ∈ db.users := by
  simp only [lookupUser] at h
  by_cases hid : isUuidString sub = true <;> simp only [hid, if_true, if_false] at h
  · cases hf : db.users.find? (fun r => r.id == sub) with
    | some w =>
      rw [hf] at h
      cases h
      exact List.mem_of_find?_eq_some hf
    | none =>
      rw [hf] at h
      by_cases hem : emailTruthy email = true
      · rw [if_pos hem] at h
        exact List.mem_of_find?_eq_some h
      · rw [if_neg hem] at h
        cases h
  · cases hf : db.users.find? (fun r => r.clerk_user_id == some sub) with
    | some w =>
      rw [hf] at h
      cases h
      exact List.mem_of_find?_eq_some hf
    | none =>
      rw [hf] at h
      by_cases hem : emailTruthy email = true
      · rw [if_pos hem] at h
        exact List.mem_of_find?_eq_some h
      · rw [if_neg hem] at h
        cases h

/-- Shape of the store after a resolution that found an existing row:
the found row is reconciled in place. -/
theorem resolveUser_users_found (db : UsersDB) (sub : String) (email : Option String)
    (name : String) (ev : Bool) (freshId : String) (u : UserRow)
    (hlook : lookupUser db sub email = some u) :
    (resolveUser db sub email name ev freshId).2.users =
      db.users.map (fun r => if r.id == u.id then reconcileUser u email name ev else r) := by
  simp only [resolveUser, hlook]
  split <;> rfl

/-- Shape of the store after a resolution that found no row: the new
just-in-time provisioned row is appended. -/
theorem resolveUser_users_created (db : UsersDB) (sub : String) (email : Option String)
    (name : String) (ev : Bool) (freshId : String)
    (hlook : lookupUser db sub email = none) :
    (resolveUser db sub email name ev freshId).2.users =
      db.users ++
        [{ id := freshId, clerk_user_id := some sub, email := email, name := name,
           is_verified := ev, is_active := true,
           roles := if db.role_names.contains "student" then ["student"] else [] }] := by
  simp only [resolveUser, hlook]
  rw [if_neg (by decide : ¬ (true = false))]

/-- C7: the verified flag is monotonic under identity resolution: a row
that is verified before a resolution (under a fresh creation id and
unique row ids) is still verified in the resulting store, whatever
claims the resolution carries. -/
theorem C7_verified_flag_monotone
    (db : UsersDB) (sub : String) (email : Option String) (name : String)
    (ev : Bool) (freshId : String)
    (hfresh : ∀ u ∈ db.users, u.id ≠ freshId)
    (hnodup : (db.users.map UserRow.id).Nodup) :
    ∀ u ∈ db.users, u.is_verified = true →
      ∀ u2 ∈ (resolveUser db sub email name ev freshId).2.users, u2.id = u.id →
        u2.is_verified = true := by
  intro u hu huv u2 hu2 hid2
  have hinj := List.inj_on_of_nodup_map hnodup
  cases hlook : lookupUser db sub email with
  | none =>
    rw [resolveUser_users_created db sub email name ev freshId hlook] at hu2
    rcases List.mem_append.mp hu2 with h | h
    · rw [hinj h hu hid2]
      exact huv
    · exfalso
      have h2 : u2.id = freshId := by rw [List.mem_singleton.mp h]
      exact hfresh u hu (by rw [← hid2, h2])
  | some w =>
    have hwmem := lookupUser_mem db sub email w hlook
    rw [resolveUser_users_found db sub email name ev freshId w hlook] at hu2
    obtain ⟨r, hr, hru2⟩ := List.mem_map.mp hu2
    by_cases hrid : (r.id == w.id) = true
    · rw [← hru2, if_pos hrid]
      have hwid : w.id = u.id := by
        rw [← hru2, if_pos hrid] at hid2
        exact hid2
      have hwu : w = u := hinj hwmem hu hwid
      rw [hwu]
      exact reconcileUser_keeps_verified u email name ev huv
    · rw [← hru2, if_neg hrid]
      rw [← hru2, if_neg hrid] at hid2
      rw [hinj hr hu hid2]
      exact huv

/-- C7 witness: a concrete verified user stays verified when claims
arrive with the verified flag off. -/
theorem C7_verified_flag_monotone_witness :
    (⟨"u-1", some "user_abc", some "alice\x40example.com", "Alice", true, true,
        ["student"]⟩ : UserRow).is_verified = true :=
  C7_verified_flag_monotone
    ⟨[⟨"u-1", some "user_abc", some "alice\x40example.com", "Alice", true, true,
        ["student"]⟩], ["student"]⟩
    "user_abc" none "User" false "u-2" (by decide) (by decide)
    ⟨"u-1", some "user_abc", some "alice\x40example.com", "Alice", true, true, ["student"]⟩
    (by decide) (by decide)
    ⟨"u-1", some "user_abc", some "alice\x40example.com", "Alice", true, true, ["student"]⟩
    (by decide) (by decide)

end Regod
